import Mathlib

/-!
# Verification of the task query, mutation and validation engine

A shallow embedding, in Lean 4, of the core service of the `todo-app-nest`
repository (`src/tasks/tasks.service.ts` together with the entity and DTO
declarations it depends on), followed by theorems settling the behavioural
claims about it.

Modelling conventions:

* The persistence store (a TypeORM repository over Postgres) is modelled as a
  `List Task` together with explicit boolean flags telling whether each
  underlying store operation succeeds; a `false` flag stands for the store
  raising an error (store unavailable etc.).
* Calendar dates and timestamps are modelled as `Int` (an abstract instant).
  JavaScript `new Date(string)` parsing is modelled by an abstract parameter
  `parseDate : String → Option Int`; `none` corresponds to `NaN`.
* Fallible operations return `Except ServiceError α`; operations that can
  write return the resulting store alongside, so that "no store write
  happened" is expressible as the store component being unchanged.
* `TaskStatus`/`TaskPriority` are closed inductive types, as the entity
  declares closed enums.
-/

set_option autoImplicit false

deriving instance DecidableEq for Except

namespace TodoApp

/-- The `TaskStatus` enum from `task.entity.ts`: Pending, Done, In Progress, Paused. -/
inductive TaskStatus where
  | pending
  | done
  | inProgress
  | paused
deriving DecidableEq

/-- The literal database value of each status (`task.entity.ts`). -/
def TaskStatus.value : TaskStatus → String
  | .pending => "Pending"
  | .done => "Done"
  | .inProgress => "In Progress"
  | .paused => "Paused"

/-- The `TaskPriority` enum from `task.entity.ts`: Red (high), Yellow (medium), Blue (normal). -/
inductive TaskPriority where
  | high
  | medium
  | normal
deriving DecidableEq

/-- The literal database value of each priority (`task.entity.ts`). -/
def TaskPriority.value : TaskPriority → String
  | .high => "Red"
  | .medium => "Yellow"
  | .normal => "Blue"

/-- The `Task` entity (`task.entity.ts`). Dates and timestamps are abstract
instants (`Int`). -/
structure Task where
  id : String
  name : String
  dueDate : Int
  status : TaskStatus
  priority : TaskPriority
  isActive : Bool
  dateOfCreation : Int
  updatedAt : Int
deriving DecidableEq

/-- The error kinds raised by the service, following the error taxonomy:
missing identifier, malformed identifier, not-found, invalid date format,
validation failure, and persistence failure (underlying store operation
failed).  In the source the first, second, fourth and sixth are
`BadRequestException`s with distinct messages and the third is a
`NotFoundException`; kinds, not transport representations, are modelled. -/
inductive ServiceError where
  | missingIdentifier
  | malformedIdentifier
  | notFound (id : String)
  | invalidDateFormat
  | validationFailed (fields : List String)
  | persistenceFailure (msg : String)
deriving DecidableEq

/-- From `create-task.dto.ts`: `name` and `dueDate` required, the rest optional. -/
structure CreateTaskDto where
  name : String
  dueDate : String
  status? : Option TaskStatus := none
  priority? : Option TaskPriority := none
  isActive? : Option Bool := none
deriving DecidableEq

/-- From `update-task.dto.ts`: every field optional. -/
structure UpdateTaskDto where
  name? : Option String := none
  dueDate? : Option String := none
  status? : Option TaskStatus := none
  priority? : Option TaskPriority := none
  isActive? : Option Bool := none
deriving DecidableEq

/-- The all-absent update payload `{}`. -/
def emptyUpdateDto : UpdateTaskDto := {}

/-- The sort order `ASC`/`DESC` (`query-task.dto.ts`). -/
inductive SortOrder where
  | asc
  | desc
deriving DecidableEq

/-- From `query-task.dto.ts`: every field optional; `none` means the query string
did not supply the parameter (the service destructures with defaults). -/
structure QueryTaskDto where
  page? : Option Nat := none
  limit? : Option Nat := none
  status? : Option TaskStatus := none
  priority? : Option TaskPriority := none
  isActive? : Option Bool := none
  search? : Option String := none
  sortBy? : Option String := none
  sortOrder? : Option SortOrder := none
deriving DecidableEq

/-- Pagination metadata (`paginated-response.dto.ts`). -/
structure PaginationMeta where
  page : Nat
  limit : Nat
  total : Nat
  totalPages : Nat
  hasNext : Bool
  hasPrev : Bool
deriving DecidableEq

/-- Paginated response (`paginated-response.dto.ts`). -/
structure PaginatedTaskResponse where
  data : List Task
  meta : PaginationMeta
deriving DecidableEq

/-! ## Identifier verification (`TasksService.findOne`, lines 101–110) -/

/-- A whitespace character as removed by JavaScript `String.prototype.trim`
(the ASCII ones; exotic Unicode space characters are not modelled). -/
def isJsWhitespace (c : Char) : Bool :=
  c == ' ' || c == '\t' || c == '\n' || c == '\r' || c == '\x0b' || c == '\x0c'

/-- Whether a string trims to the empty string, i.e. every character is
whitespace. -/
def isBlankStr (s : String) : Bool :=
  s.data.all isJsWhitespace

/-- The guard `!id?.trim()`: the identifier is absent (`null`/`undefined`),
or trims to the empty string. -/
def idBlank : Option String → Bool
  | none => true
  | some s => isBlankStr s

/-- A hexadecimal digit, as in the character class `[0-9a-f]` under the
case-insensitive `/i` flag. -/
def isHexDigit (c : Char) : Bool :=
  c.isDigit || ('a' ≤ c && c ≤ 'f') || ('A' ≤ c && c ≤ 'F')

/-- Consume exactly `n` hexadecimal digits, returning the remaining
characters, or `none` if fewer than `n` are available. -/
def hexRun : Nat → List Char → Option (List Char)
  | 0, rest => some rest
  | n + 1, c :: rest => if isHexDigit c then hexRun n rest else none
  | _ + 1, [] => none

/-- The anchored regular expression
`/^[0-9a-f]{8}-[0-9a-f]{4}-[0-9a-f]{4}-[0-9a-f]{4}-[0-9a-f]{12}$/i`:
exactly five hyphen-separated runs of hexadecimal digits with lengths
8, 4, 4, 4, 12, and nothing else. -/
def isUuid (s : String) : Bool :=
  match hexRun 8 s.data with
  | some ('-' :: r1) =>
    match hexRun 4 r1 with
    | some ('-' :: r2) =>
      match hexRun 4 r2 with
      | some ('-' :: r3) =>
        match hexRun 4 r3 with
        | some ('-' :: r4) =>
          match hexRun 12 r4 with
          | some [] => true
          | _ => false
        | _ => false
      | _ => false
    | _ => false
  | _ => false

/-- The identifier checks at the head of `findOne`: blank → "Task ID is
required" (missing identifier); not matching the UUID regex → "Invalid task
ID format" (malformed identifier). -/
def checkId (id : Option String) : Except ServiceError String :=
  match id with
  | none => .error .missingIdentifier
  | some s =>
    if isBlankStr s then .error .missingIdentifier
    else if isUuid s then .ok s
    else .error .malformedIdentifier

/-! ## The `where` filter (`TasksService.findAll`, lines 51–67) -/

/-- Predicate `scanTail f s` holds when `f` holds of some suffix of `s` (including
`s` itself and `[]`): how a leading `%` wildcard consumes characters. -/
def scanTail (f : List Char → Bool) : List Char → Bool
  | [] => f []
  | c :: s' => f (c :: s') || scanTail f s'

/-- SQL `LIKE` pattern matching over characters: `%` matches any sequence,
`_` matches any single character, anything else matches itself.  (Escape
sequences are not modelled; the characterizations below are stated for
search strings free of wildcard and escape characters.) -/
def likeMatch : List Char → List Char → Bool
  | [], s => s.isEmpty
  | c :: ps, s =>
    if c == '%' then scanTail (likeMatch ps) s
    else if c == '_' then
      match s with
      | [] => false
      | _ :: s' => likeMatch ps s'
    else
      match s with
      | [] => false
      | c' :: s' => c == c' && likeMatch ps s'

/-- The pattern built by `findAll` for the search term: percent, the search string, percent. -/
def likePattern (search : String) : List Char :=
  '%' :: (search.data ++ ['%'])

/-- The conjunctive `where` clause of `findAll`: equality on `status`,
`priority`, `isActive` when supplied, and `name LIKE '%search%'` when the
search string is truthy (JavaScript: a non-empty string). -/
def matchesWhere (q : QueryTaskDto) (t : Task) : Bool :=
  (match q.status? with
   | some s => t.status = s
   | none => true) &&
  (match q.priority? with
   | some p => t.priority = p
   | none => true) &&
  (match q.isActive? with
   | some b => t.isActive = b
   | none => true) &&
  (match q.search? with
   | some s => if s = "" then true else likeMatch (likePattern s) t.name.data
   | none => true)

/-! ## Sorting (`TasksService.findAll`, lines 69–85) -/

/-- The sort-field allow-list of `findAll`. -/
def validSortFields : List String :=
  ["name", "dueDate", "status", "priority", "dateOfCreation"]

/-- The resolution `validSortFields.includes(sortBy) ? sortBy : 'dateOfCreation'`. -/
def resolveSortField (sortBy : String) : String :=
  if validSortFields.contains sortBy then sortBy else "dateOfCreation"

/-- Position of a status in the entity enum declaration order (the order a
Postgres enum column compares by). -/
def TaskStatus.ord : TaskStatus → Nat
  | .pending => 0
  | .done => 1
  | .inProgress => 2
  | .paused => 3

/-- Position of a priority in the entity enum declaration order. -/
def TaskPriority.ord : TaskPriority → Nat
  | .high => 0
  | .medium => 1
  | .normal => 2

/-- Lexicographic "less or equal" on character lists (the store's ordering
over text columns, collation aside). -/
def charsLe : List Char → List Char → Bool
  | [], _ => true
  | _ :: _, [] => false
  | a :: as, b :: bs => decide (a < b) || (a == b && charsLe as bs)

/-- Ascending comparison of two tasks on a sort field; any string outside
the entity's sortable columns compares on `dateOfCreation` (unreachable
after `resolveSortField`). -/
def fieldLe (field : String) (a b : Task) : Bool :=
  match field with
  | "name" => charsLe a.name.data b.name.data
  | "dueDate" => decide (a.dueDate ≤ b.dueDate)
  | "status" => decide (a.status.ord ≤ b.status.ord)
  | "priority" => decide (a.priority.ord ≤ b.priority.ord)
  | _ => decide (a.dateOfCreation ≤ b.dateOfCreation)

/-- The clause `order` with the resolved field and direction: descending order reverses the
ascending comparison. -/
def taskLe (field : String) (ord : SortOrder) (a b : Task) : Bool :=
  match ord with
  | .asc => fieldLe field a b
  | .desc => fieldLe field b a

/-- Insertion into a sorted list (stable insertion sort). -/
def insertSorted (le : Task → Task → Bool) (t : Task) : List Task → List Task
  | [] => [t]
  | x :: xs => if le t x then t :: x :: xs else x :: insertSorted le t xs

/-- The store's `ORDER BY`: a sorted permutation of the matched records. -/
def sortTasks (le : Task → Task → Bool) : List Task → List Task
  | [] => []
  | x :: xs => insertSorted le x (sortTasks le xs)

/-! ## Service operations (`tasks.service.ts`)

Each operation is parameterised over `parseDate` (JavaScript date parsing)
and over boolean flags recording whether the underlying store operations
succeed (`true` = store call succeeds, `false` = the store raises).
Operations that can write return the resulting store as the second
component; on failure the input store is returned unchanged. -/

/-- Method `TasksService.create` (lines 24–37): parse `dueDate`, rejecting an
unparseable value before any store interaction, then `repository.create`
with DTO fields (entity defaults `Pending`/`Blue`/`true` fill omitted
optionals) and `repository.save`.  `genId` is the store-generated UUID and
`now` the store-side `CreateDateColumn`/`UpdateDateColumn` timestamp. -/
def createSvc (parseDate : String → Option Int) (dto : CreateTaskDto)
    (store : List Task) (genId : String) (now : Int) (saveOk : Bool) :
    Except ServiceError Task × List Task :=
  match parseDate dto.dueDate with
  | none => (.error .invalidDateFormat, store)
  | some d =>
    if saveOk then
      let task : Task :=
        { id := genId
          name := dto.name
          dueDate := d
          status := dto.status?.getD .pending
          priority := dto.priority?.getD .normal
          isActive := dto.isActive?.getD true
          dateOfCreation := now
          updatedAt := now }
      (.ok task, store ++ [task])
    else (.error (.persistenceFailure "save failed"), store)

/-- Method `TasksService.findOne` (lines 101–121): identifier checks, then a store
lookup by `id`, then the not-found check. -/
def findOneSvc (id : Option String) (store : List Task) (readOk : Bool) :
    Except ServiceError Task :=
  match checkId id with
  | .error e => .error e
  | .ok s =>
    if readOk then
      match store.find? (fun t => t.id == s) with
      | some t => .ok t
      | none => .error (.notFound s)
    else .error (.persistenceFailure "find failed")

/-- The four conditional field assignments of `TasksService.update` (lines
129–140), each guarded by `!== undefined`, applied to the found task. -/
def applyUpdateFields (dto : UpdateTaskDto) (t : Task) : Task :=
  { t with
    name := match dto.name? with | some n => n | none => t.name
    status := match dto.status? with | some s => s | none => t.status
    priority := match dto.priority? with | some p => p | none => t.priority
    isActive := match dto.isActive? with | some b => b | none => t.isActive }

/-- The save of an updated task: `repository.save` refreshes `updatedAt`
(the entity's `UpdateDateColumn`) and replaces the record with matching
`id` in the store; a failing save is caught by `update`'s `catch` block and
re-raised as `BadRequestException('Failed to update task')`, a persistence
failure. -/
def saveUpdated (t' : Task) (store : List Task) (now : Int) (saveOk : Bool) :
    Except ServiceError Task × List Task :=
  if saveOk then
    let saved : Task := { t' with updatedAt := now }
    (.ok saved, store.map (fun u => if u.id == t'.id then saved else u))
  else (.error (.persistenceFailure "Failed to update task"), store)

/-- Method `TasksService.update` (lines 123–157): `findOne`, then the conditional
field assignments; `dueDate` is guarded by truthiness (`if
(updateTaskDto.dueDate)`), so an absent *or empty-string* `dueDate` is
skipped, and a present non-empty `dueDate` is parsed, an unparseable one
raising the date-format error before any field is persisted. -/
def updateSvc (parseDate : String → Option Int) (id : Option String)
    (dto : UpdateTaskDto) (store : List Task) (now : Int)
    (readOk saveOk : Bool) : Except ServiceError Task × List Task :=
  match findOneSvc id store readOk with
  | .error e => (.error e, store)
  | .ok task =>
    let base := applyUpdateFields dto task
    match dto.dueDate? with
    | none => saveUpdated base store now saveOk
    | some s =>
      if s = "" then saveUpdated base store now saveOk
      else
        match parseDate s with
        | none => (.error .invalidDateFormat, store)
        | some d => saveUpdated { base with dueDate := d } store now saveOk

/-- Method `TasksService.remove` (lines 159–167): `findOne`, then
`repository.remove`; a failing remove is caught and re-raised as
`BadRequestException('Failed to delete task')`, a persistence failure. -/
def removeSvc (id : Option String) (store : List Task)
    (readOk removeOk : Bool) : Except ServiceError Unit × List Task :=
  match findOneSvc id store readOk with
  | .error e => (.error e, store)
  | .ok task =>
    if removeOk then (.ok (), store.filter (fun t => !(t.id == task.id)))
    else (.error (.persistenceFailure "Failed to delete task"), store)

/-! ## Listing (`TasksService.findAll`, lines 39–99) -/

/-- Number of records of the store satisfying a predicate
(`repository.count({ where })`). -/
def countWhere (p : Task → Bool) (store : List Task) : Nat :=
  (store.filter p).length

/-- Method `TasksService.findAll`: destructure with defaults, build the `where`
clause, resolve the sort field against the allow-list, then
`findAndCount({ where, order, skip: (page-1)*limit, take: limit })` and the
metadata computation (`totalPages = Math.ceil(total / limit)`,
`hasNext = page < totalPages`, `hasPrev = page > 1`). -/
def findAllSvc (q : QueryTaskDto) (store : List Task) (readOk : Bool) :
    Except ServiceError PaginatedTaskResponse :=
  let page := q.page?.getD 1
  let limit := q.limit?.getD 10
  let sortBy := q.sortBy?.getD "dateOfCreation"
  let sortOrder := q.sortOrder?.getD .desc
  if readOk then
    let matched := store.filter (matchesWhere q)
    let total := matched.length
    let sorted := sortTasks (taskLe (resolveSortField sortBy) sortOrder) matched
    let totalPages := (total + limit - 1) / limit
    .ok
      { data := (sorted.drop ((page - 1) * limit)).take limit
        meta :=
          { page := page
            limit := limit
            total := total
            totalPages := totalPages
            hasNext := decide (page < totalPages)
            hasPrev := decide (1 < page) } }
  else .error (.persistenceFailure "find failed")

/-! ## Statistics (`TasksService.getStats`, lines 169–194) -/

/-- The six aggregate counts (`tasks.service.ts` return type of `getStats`). -/
structure TaskStats where
  total : Nat
  pending : Nat
  inProgress : Nat
  done : Nat
  paused : Nat
  active : Nat
deriving DecidableEq

/-- Success flags for the six independent `repository.count` queries issued
by `getStats` under `Promise.all`. -/
structure StatsQueriesOk where
  totalOk : Bool := true
  pendingOk : Bool := true
  inProgressOk : Bool := true
  doneOk : Bool := true
  pausedOk : Bool := true
  activeOk : Bool := true
deriving DecidableEq

/-- The `Promise.all` combination resolves only when every count query succeeds. -/
def StatsQueriesOk.all (o : StatsQueriesOk) : Bool :=
  o.totalOk && o.pendingOk && o.inProgressOk && o.doneOk && o.pausedOk &&
    o.activeOk

/-- Method `TasksService.getStats`: six independent counts over the whole store; if
any rejects, the `catch` re-raises
`BadRequestException('Failed to fetch task statistics')`, a persistence
failure, and no partial result is produced. -/
def getStatsSvc (store : List Task) (o : StatsQueriesOk) :
    Except ServiceError TaskStats :=
  if o.all then
    .ok
      { total := store.length
        pending := countWhere (fun t => t.status == .pending) store
        inProgress := countWhere (fun t => t.status == .inProgress) store
        done := countWhere (fun t => t.status == .done) store
        paused := countWhere (fun t => t.status == .paused) store
        active := countWhere (fun t => t.isActive) store }
  else .error (.persistenceFailure "Failed to fetch task statistics")

/-! ## Supporting lemmas -/

theorem length_insertSorted (le : Task → Task → Bool) (t : Task)
    (l : List Task) : (insertSorted le t l).length = l.length + 1 := by
  induction l with
  | nil => rfl
  | cons x xs ih =>
    simp only [insertSorted]
    split
    · simp
    · simp [ih]

theorem length_sortTasks (le : Task → Task → Bool) (l : List Task) :
    (sortTasks le l).length = l.length := by
  induction l with
  | nil => rfl
  | cons x xs ih => simp [sortTasks, length_insertSorted, ih]

theorem mem_insertSorted (le : Task → Task → Bool) (t u : Task)
    (l : List Task) : u ∈ insertSorted le t l ↔ u = t ∨ u ∈ l := by
  induction l with
  | nil => simp [insertSorted]
  | cons x xs ih =>
    simp only [insertSorted]
    split
    · simp [or_comm, or_assoc, eq_comm]
    · simp only [List.mem_cons, ih]
      tauto

theorem mem_sortTasks (le : Task → Task → Bool) (u : Task) (l : List Task) :
    u ∈ sortTasks le l ↔ u ∈ l := by
  induction l with
  | nil => simp [sortTasks]
  | cons x xs ih => simp [sortTasks, mem_insertSorted, ih]

theorem countWhere_le_length (p : Task → Bool) (store : List Task) :
    countWhere p store ≤ store.length := by
  simpa [countWhere] using List.length_filter_le p store

theorem le_ceilDiv_mul (t l : Nat) (hl : 0 < l) :
    t ≤ ((t + l - 1) / l) * l := by
  rcases Nat.eq_zero_or_pos t with h0 | h1
  · simp [h0]
  · have ht : t + l - 1 = (t - 1) + l := by omega
    rw [ht, Nat.add_div_right _ hl]
    have hd := Nat.div_add_mod (t - 1) l
    have hm : (t - 1) % l < l := Nat.mod_lt _ hl
    calc t = (t - 1) + 1 := by omega
      _ = l * ((t - 1) / l) + (t - 1) % l + 1 := by rw [hd]
      _ ≤ l * ((t - 1) / l) + l := by
          rw [Nat.add_assoc]
          exact Nat.add_le_add_left (by omega) _
      _ = ((t - 1) / l + 1) * l := by ring

theorem ceilDiv_le_of_le_mul (t l m : Nat) (hl : 0 < l) (h : t ≤ m * l) :
    (t + l - 1) / l ≤ m := by
  have : (t + l - 1) / l < m + 1 := by
    rw [Nat.div_lt_iff_lt_mul hl]
    have : (m + 1) * l = m * l + l := by ring
    omega
  omega

/-! ## Characterization of the `LIKE '%search%'` filter -/

/-- A character that is neither a `LIKE` wildcard (`%`, `_`) nor the
`LIKE` escape character (`\`). -/
def noWildcardChar (c : Char) : Bool :=
  !(c == '%' || c == '_' || c == '\\')

/-- A search string free of `LIKE` wildcard and escape characters. -/
def noWildcards (s : String) : Bool :=
  s.data.all noWildcardChar

theorem scanTail_iff (f : List Char → Bool) (s : List Char) :
    scanTail f s = true ↔ ∃ pre suf, s = pre ++ suf ∧ f suf = true := by
  induction s with
  | nil =>
    simp only [scanTail]
    constructor
    · intro h
      exact ⟨[], [], rfl, h⟩
    · rintro ⟨pre, suf, hps, hf⟩
      obtain ⟨rfl, rfl⟩ := List.append_eq_nil.mp hps.symm
      exact hf
  | cons c s' ih =>
    simp only [scanTail, Bool.or_eq_true, ih]
    constructor
    · rintro (h | ⟨pre, suf, rfl, hf⟩)
      · exact ⟨[], c :: s', rfl, h⟩
      · exact ⟨c :: pre, suf, rfl, hf⟩
    · rintro ⟨pre, suf, hps, hf⟩
      match pre, hps with
      | [], hps => exact Or.inl (by simpa using hps ▸ hf)
      | p :: pre', hps =>
        obtain ⟨rfl, h2⟩ := List.cons.injEq .. ▸ hps
        exact Or.inr ⟨pre', suf, by simpa using h2, hf⟩

theorem likeMatch_literal (lit s : List Char)
    (h : ∀ c ∈ lit, noWildcardChar c = true) :
    likeMatch lit s = true ↔ s = lit := by
  induction lit generalizing s with
  | nil =>
    cases s <;> simp [likeMatch]
  | cons c ps ih =>
    have hc := h c (by simp)
    have hc1 : (c == '%') = false := by
      revert hc; simp [noWildcardChar]; tauto
    have hc2 : (c == '_') = false := by
      revert hc; simp [noWildcardChar]; tauto
    cases s with
    | nil => simp [likeMatch, hc1, hc2]
    | cons c' s' =>
      simp only [likeMatch, hc1, hc2, Bool.false_eq_true, if_false,
        Bool.and_eq_true, beq_iff_eq]
      rw [ih s' (fun d hd => h d (by simp [hd]))]
      constructor
      · rintro ⟨rfl, rfl⟩
        rfl
      · intro hs
        obtain ⟨h1, h2⟩ := List.cons.injEq .. ▸ hs
        exact ⟨h1.symm, h2⟩

theorem likeMatch_literal_pct (lit s : List Char)
    (h : ∀ c ∈ lit, noWildcardChar c = true) :
    likeMatch (lit ++ ['%']) s = true ↔ ∃ suf, s = lit ++ suf := by
  induction lit generalizing s with
  | nil =>
    constructor
    · intro _
      exact ⟨s, by simp⟩
    · intro _
      simp only [List.nil_append, likeMatch, beq_self_eq_true, if_true,
        scanTail_iff]
      exact ⟨s, [], by simp, rfl⟩
  | cons c ps ih =>
    have hc := h c (by simp)
    have hc1 : (c == '%') = false := by
      revert hc; simp [noWildcardChar]; tauto
    have hc2 : (c == '_') = false := by
      revert hc; simp [noWildcardChar]; tauto
    cases s with
    | nil => simp [likeMatch, hc1, hc2]
    | cons c' s' =>
      simp only [List.cons_append, likeMatch, hc1, hc2, Bool.false_eq_true,
        if_false, Bool.and_eq_true, beq_iff_eq, List.append_eq]
      rw [ih s' (fun d hd => h d (by simp [hd]))]
      constructor
      · rintro ⟨rfl, suf, rfl⟩
        exact ⟨suf, rfl⟩
      · rintro ⟨suf, hs⟩
        obtain ⟨h1, h2⟩ := List.cons.injEq .. ▸ hs
        exact ⟨h1.symm, suf, h2⟩

/-- For a search string free of wildcard characters, the pattern
`%search%` matches a name exactly when the search occurs as a contiguous
substring of the name. -/
theorem likeMatch_pattern_iff (w s : List Char)
    (h : ∀ c ∈ w, noWildcardChar c = true) :
    likeMatch ('%' :: (w ++ ['%'])) s = true ↔
      ∃ pre suf, s = pre ++ w ++ suf := by
  simp only [likeMatch, beq_self_eq_true, if_true, scanTail_iff]
  constructor
  · rintro ⟨pre, t, rfl, ht⟩
    obtain ⟨suf, rfl⟩ := (likeMatch_literal_pct w t h).mp ht
    exact ⟨pre, suf, by simp⟩
  · rintro ⟨pre, suf, rfl⟩
    exact ⟨pre, w ++ suf,  by simp,
      (likeMatch_literal_pct w (w ++ suf) h).mpr ⟨suf, rfl⟩⟩

/-! ## The spec's reading of the search filter -/

/-- Whether `needle` occurs at the head of `hay`. -/
def startsWithChars : List Char → List Char → Bool
  | [], _ => true
  | _ :: _, [] => false
  | a :: as, b :: bs => a == b && startsWithChars as bs

/-- Whether `needle` occurs as a contiguous substring of `hay`. -/
def containsChars (needle : List Char) : List Char → Bool
  | [] => needle.isEmpty
  | b :: bs => startsWithChars needle (b :: bs) || containsChars needle bs

/-- Modelled from the spec: §4.3 requires "an optional **case-insensitive**
substring filter on `name`"; the source instead issues `LIKE` (which is
case-sensitive on the configured Postgres store).  This definition follows
the spec's words, for comparison with `matchesWhere`. -/
def specSearchMatchesCI (search name : String) : Bool :=
  containsChars (search.data.map Char.toLower) (name.data.map Char.toLower)

/-- Every task carries exactly one of the four statuses, so the four
per-status counts partition the collection. -/
theorem length_eq_sum_status_counts (store : List Task) :
    store.length =
      countWhere (fun t => t.status == .pending) store +
        countWhere (fun t => t.status == .inProgress) store +
        countWhere (fun t => t.status == .done) store +
        countWhere (fun t => t.status == .paused) store := by
  induction store with
  | nil => rfl
  | cons t ts ih =>
    simp only [countWhere, List.filter_cons] at *
    cases ht : t.status <;> simp [ht] <;> omega

/-- The payload's `dueDate`, when present, is a non-empty parseable date
string — the guarantee the validation layer (`@IsDateString`) provides for
payloads that reach the service. -/
def dueDateValid (pd : String → Option Int) (dto : UpdateTaskDto) : Prop :=
  match dto.dueDate? with
  | none => True
  | some s => s ≠ "" ∧ ∃ d, pd s = some d

/-! ## Claims -/

/-- Claim C3: for every identifier that is absent, empty or
whitespace-only, `getTask`/`updateTask`/`deleteTask` fail with the
missing-identifier error independently of the store (the result is the
same for every store contents and even when every store operation would
fail, so the store is never consulted); for every non-blank identifier not
matching the 8-4-4-4-12 hexadecimal shape they fail with the
malformed-identifier error, likewise before any store access; and the two
failure conditions are distinct. -/
theorem id_validation_precedes_store (id : Option String)
    (pd : String → Option Int) (dto : UpdateTaskDto) (store : List Task)
    (now : Int) (rOk sOk : Bool) :
    (idBlank id = true →
      findOneSvc id store rOk = .error .missingIdentifier ∧
      updateSvc pd id dto store now rOk sOk =
        (.error .missingIdentifier, store) ∧
      removeSvc id store rOk sOk = (.error .missingIdentifier, store)) ∧
    (∀ s, id = some s → idBlank id = false → isUuid s = false →
      findOneSvc id store rOk = .error .malformedIdentifier ∧
      updateSvc pd id dto store now rOk sOk =
        (.error .malformedIdentifier, store) ∧
      removeSvc id store rOk sOk = (.error .malformedIdentifier, store)) ∧
    ServiceError.missingIdentifier ≠ ServiceError.malformedIdentifier := by
  refine ⟨?_, ?_, by simp⟩
  · intro hb
    have hc : checkId id = .error .missingIdentifier := by
      cases id with
      | none => rfl
      | some s =>
        simp only [idBlank] at hb
        simp [checkId, hb]
    simp [findOneSvc, updateSvc, removeSvc, hc]
  · rintro s rfl hb hu
    simp only [idBlank] at hb
    have hc : checkId (some s) = .error .malformedIdentifier := by
      simp [checkId, hb, hu]
    simp [findOneSvc, updateSvc, removeSvc, hc]

/-- Witness for C3 at concrete identifiers. -/
theorem id_validation_precedes_store_witness :
    findOneSvc (some "   ") [] true = .error .missingIdentifier ∧
    findOneSvc (some "invalid-id") [] true = .error .malformedIdentifier :=
  ⟨((id_validation_precedes_store (some "   ") (fun _ => none) {} [] 0 true
      true).1 (by decide)).1,
   ((id_validation_precedes_store (some "invalid-id") (fun _ => none) {} []
      0 true true).2.1 "invalid-id" rfl (by decide) (by decide)).1⟩

/-- Claim C4: a create payload whose `dueDate` does not parse fails with
the date-format error and leaves the store unwritten; an update payload
whose supplied (non-empty) `dueDate` does not parse fails with the
date-format error and leaves the store unchanged. -/
theorem invalid_date_rejected (pd : String → Option Int)
    (cdto : CreateTaskDto) (dto : UpdateTaskDto) (id : Option String)
    (store : List Task) (genId : String) (now : Int) (sOk : Bool) :
    (pd cdto.dueDate = none →
      createSvc pd cdto store genId now sOk =
        (.error .invalidDateFormat, store)) ∧
    (∀ task s, findOneSvc id store true = .ok task → dto.dueDate? = some s →
      s ≠ "" → pd s = none →
      updateSvc pd id dto store now true sOk =
        (.error .invalidDateFormat, store)) := by
  constructor
  · intro h
    simp [createSvc, h]
  · intro task s hfind hdd hne hpd
    simp [updateSvc, hfind, hdd, hne, hpd]

/-- Witness for C4 at a concrete unparseable date. -/
theorem invalid_date_rejected_witness :
    createSvc (fun _ => none) { name := "t", dueDate := "invalid-date" } []
      "id1" 0 true = (.error .invalidDateFormat, []) :=
  (invalid_date_rejected (fun _ => none)
      { name := "t", dueDate := "invalid-date" } {} none [] "id1" 0 true).1
    rfl

/-- Claim C9: an update payload whose `dueDate` field is present but equal
to the empty string is silently ignored — no date-format error for any
date parser (the parser is never consulted), the stored due date is left
unchanged, and the rest of the update proceeds normally, because the code
tests `dueDate` for truthiness rather than presence. -/
theorem update_empty_dueDate_ignored (pd : String → Option Int)
    (id : Option String) (dto : UpdateTaskDto) (store : List Task)
    (now : Int) (task : Task)
    (hfind : findOneSvc id store true = .ok task)
    (hdd : dto.dueDate? = some "") :
    ∃ t', updateSvc pd id dto store now true true =
        (.ok t', store.map (fun u => if u.id == task.id then t' else u)) ∧
      t'.dueDate = task.dueDate ∧
      t'.name = dto.name?.getD task.name ∧
      t'.status = dto.status?.getD task.status ∧
      t'.priority = dto.priority?.getD task.priority ∧
      t'.isActive = dto.isActive?.getD task.isActive ∧
      t'.id = task.id ∧
      t'.dateOfCreation = task.dateOfCreation ∧
      t'.updatedAt = now := by
  refine ⟨{ applyUpdateFields dto task with updatedAt := now },
    ?_, ?_, ?_, ?_, ?_, ?_, ?_, ?_, ?_⟩
  · simp [updateSvc, hfind, hdd, saveUpdated, applyUpdateFields]
  · simp [applyUpdateFields]
  · cases h : dto.name? <;> simp [applyUpdateFields, h]
  · cases h : dto.status? <;> simp [applyUpdateFields, h]
  · cases h : dto.priority? <;> simp [applyUpdateFields, h]
  · cases h : dto.isActive? <;> simp [applyUpdateFields, h]
  · simp [applyUpdateFields]
  · simp [applyUpdateFields]
  · simp

/-- Witness for C9: an update of a concrete task with
`{dueDate: "", status: Done}` under a parser that rejects every string. -/
theorem update_empty_dueDate_ignored_witness :
    ∃ t', updateSvc (fun _ => none)
        (some "123e4567-e89b-12d3-a456-426614174000")
        { dueDate? := some "", status? := some .done }
        [{ id := "123e4567-e89b-12d3-a456-426614174000", name := "n",
           dueDate := 7, status := .pending, priority := .normal,
           isActive := true, dateOfCreation := 1, updatedAt := 1 }] 5 true
        true =
        (.ok t',
          [{ id := "123e4567-e89b-12d3-a456-426614174000", name := "n",
             dueDate := 7, status := .pending, priority := .normal,
             isActive := true, dateOfCreation := 1,
             updatedAt := 1 }].map
            (fun u =>
              if u.id == "123e4567-e89b-12d3-a456-426614174000" then t'
              else u)) ∧
      t'.dueDate = 7 ∧ t'.status = .done ∧ t'.updatedAt = 5 :=
  match update_empty_dueDate_ignored (fun _ => none)
      (some "123e4567-e89b-12d3-a456-426614174000")
      { dueDate? := some "", status? := some .done }
      [{ id := "123e4567-e89b-12d3-a456-426614174000", name := "n",
         dueDate := 7, status := .pending, priority := .normal,
         isActive := true, dateOfCreation := 1, updatedAt := 1 }] 5
      { id := "123e4567-e89b-12d3-a456-426614174000", name := "n",
        dueDate := 7, status := .pending, priority := .normal,
        isActive := true, dateOfCreation := 1, updatedAt := 1 }
      (by decide) rfl with
  | ⟨t', h1, h2, _, h4, _, _, _, _, h9⟩ => ⟨t', h1, h2, h4, h9⟩

/-- Claim C1: for every existing task and every (validation-layer-valid)
update payload, `updateTask` sets exactly the supplied fields — each
supplied field takes the supplied value, each omitted field keeps the
task's value, `id` and `dateOfCreation` are never touched — and refreshes
`updatedAt`; the empty payload is accepted and is a no-op that still
refreshes `updatedAt`. -/
theorem update_frame_effect (pd : String → Option Int) (id : Option String)
    (dto : UpdateTaskDto) (store : List Task) (now : Int) (task : Task)
    (hfind : findOneSvc id store true = .ok task)
    (hdd : dueDateValid pd dto) :
    (∃ t', (updateSvc pd id dto store now true true).1 = .ok t' ∧
      t'.name = dto.name?.getD task.name ∧
      t'.status = dto.status?.getD task.status ∧
      t'.priority = dto.priority?.getD task.priority ∧
      t'.isActive = dto.isActive?.getD task.isActive ∧
      (dto.dueDate? = none → t'.dueDate = task.dueDate) ∧
      (∀ s d, dto.dueDate? = some s → pd s = some d → t'.dueDate = d) ∧
      t'.id = task.id ∧
      t'.dateOfCreation = task.dateOfCreation ∧
      t'.updatedAt = now) ∧
    (updateSvc pd id emptyUpdateDto store now true true).1 =
      .ok { task with updatedAt := now } := by
  constructor
  · cases h : dto.dueDate? with
    | none =>
      refine ⟨{ applyUpdateFields dto task with updatedAt := now },
        ?_, ?_, ?_, ?_, ?_, ?_, ?_, ?_, ?_, ?_⟩
      · simp [updateSvc, hfind, h, saveUpdated]
      · cases hn : dto.name? <;> simp [applyUpdateFields, hn]
      · cases hn : dto.status? <;> simp [applyUpdateFields, hn]
      · cases hn : dto.priority? <;> simp [applyUpdateFields, hn]
      · cases hn : dto.isActive? <;> simp [applyUpdateFields, hn]
      · intro _
        simp [applyUpdateFields]
      · intro s d hs _
        simp at hs
      · simp [applyUpdateFields]
      · simp [applyUpdateFields]
      · simp
    | some s =>
      have hdd' := hdd
      simp only [dueDateValid, h] at hdd'
      obtain ⟨hne, d, hpd⟩ := hdd'
      refine ⟨{ applyUpdateFields dto task with dueDate := d, updatedAt := now }, ?_, ?_, ?_, ?_, ?_, ?_, ?_, ?_, ?_, ?_⟩
      · simp [updateSvc, hfind, h, hne, hpd, saveUpdated]
      · cases hn : dto.name? <;> simp [applyUpdateFields, hn]
      · cases hn : dto.status? <;> simp [applyUpdateFields, hn]
      · cases hn : dto.priority? <;> simp [applyUpdateFields, hn]
      · cases hn : dto.isActive? <;> simp [applyUpdateFields, hn]
      · intro h0
        simp at h0
      · intro s' d' hs' hd'
        injection hs' with hs'
        subst hs'
        rw [hpd] at hd'
        injection hd' with hd'
      · simp [applyUpdateFields]
      · simp [applyUpdateFields]
      · simp
  · simp [updateSvc, hfind, emptyUpdateDto, saveUpdated, applyUpdateFields]

/-- Witness for C1: updating a concrete task with `{status: Done}` leaves
`name`, `priority`, `dueDate`, `isActive` unchanged and refreshes
`updatedAt`. -/
theorem update_frame_effect_witness :
    ∃ t', (updateSvc (fun _ => none)
        (some "123e4567-e89b-12d3-a456-426614174000")
        { status? := some .done }
        [{ id := "123e4567-e89b-12d3-a456-426614174000", name := "n",
           dueDate := 7, status := .pending, priority := .high,
           isActive := true, dateOfCreation := 1, updatedAt := 1 }] 5 true
        true).1 = .ok t' ∧
      t'.name = "n" ∧ t'.status = .done ∧ t'.priority = .high ∧
      t'.isActive = true ∧ t'.dueDate = 7 ∧ t'.updatedAt = 5 :=
  match update_frame_effect (fun _ => none)
      (some "123e4567-e89b-12d3-a456-426614174000") { status? := some .done }
      [{ id := "123e4567-e89b-12d3-a456-426614174000", name := "n",
         dueDate := 7, status := .pending, priority := .high,
         isActive := true, dateOfCreation := 1, updatedAt := 1 }] 5
      { id := "123e4567-e89b-12d3-a456-426614174000", name := "n",
        dueDate := 7, status := .pending, priority := .high,
        isActive := true, dateOfCreation := 1, updatedAt := 1 }
      (by decide) trivial with
  | ⟨⟨t', h1, h2, h3, h4, h5, h6, _, _, _, h10⟩, _⟩ =>
    ⟨t', h1, h2, h3, h4, h5, h6 rfl, h10⟩

/-- Claim C2: for every list query with (validated) page `p ≥ 1` and limit
`l ≥ 1`, the returned metadata carries the requested page and limit, the
total count of matching records before slicing, `totalPages` equal to the
ceiling of `total / l` (characterized as the least `m` with
`total ≤ m * l`), `hasNext ↔ p < totalPages`, `hasPrev ↔ p > 1`; the data
is the slice of length at most `l` starting at offset `(p − 1) * l` of the
sorted matching records; `total = 0` forces `totalPages = 0` and
`hasNext = false`; and a page beyond `totalPages` yields an empty data set
with the metadata still computed from the requested page. -/
theorem findAll_pagination_meta (q : QueryTaskDto) (store : List Task)
    (r : PaginatedTaskResponse)
    (hp : 1 ≤ q.page?.getD 1) (hl : 1 ≤ q.limit?.getD 10)
    (h : findAllSvc q store true = .ok r) :
    r.meta.page = q.page?.getD 1 ∧
    r.meta.limit = q.limit?.getD 10 ∧
    r.meta.total = (store.filter (matchesWhere q)).length ∧
    r.meta.total ≤ r.meta.totalPages * r.meta.limit ∧
    (∀ m, r.meta.total ≤ m * r.meta.limit → r.meta.totalPages ≤ m) ∧
    (r.meta.hasNext = true ↔ r.meta.page < r.meta.totalPages) ∧
    (r.meta.hasPrev = true ↔ 1 < r.meta.page) ∧
    r.data =
      ((sortTasks
          (taskLe (resolveSortField (q.sortBy?.getD "dateOfCreation"))
            (q.sortOrder?.getD .desc))
          (store.filter (matchesWhere q))).drop
        ((r.meta.page - 1) * r.meta.limit)).take r.meta.limit ∧
    r.data.length ≤ r.meta.limit ∧
    (r.meta.total = 0 → r.meta.totalPages = 0 ∧ r.meta.hasNext = false) ∧
    (r.meta.totalPages < r.meta.page → r.data = []) := by
  have hr : r =
      { data :=
          ((sortTasks
              (taskLe (resolveSortField (q.sortBy?.getD "dateOfCreation"))
                (q.sortOrder?.getD .desc))
              (store.filter (matchesWhere q))).drop
            ((q.page?.getD 1 - 1) * q.limit?.getD 10)).take
            (q.limit?.getD 10)
        meta :=
          { page := q.page?.getD 1
            limit := q.limit?.getD 10
            total := (store.filter (matchesWhere q)).length
            totalPages :=
              ((store.filter (matchesWhere q)).length + q.limit?.getD 10 - 1) /
                q.limit?.getD 10
            hasNext :=
              decide (q.page?.getD 1 <
                ((store.filter (matchesWhere q)).length + q.limit?.getD 10 -
                    1) / q.limit?.getD 10)
            hasPrev := decide (1 < q.page?.getD 1) } } := by
    simp only [findAllSvc, if_true] at h
    exact (Except.ok.injEq _ _ ▸ h).symm
  subst hr
  refine ⟨rfl, rfl, rfl, ?_, ?_, ?_, ?_, rfl, ?_, ?_, ?_⟩
  · exact le_ceilDiv_mul _ _ hl
  · intro m hm
    exact ceilDiv_le_of_le_mul _ _ m hl hm
  · simp
  · simp
  · exact List.length_take_le _ _
  · intro h0
    dsimp only at h0
    have htp :
        ((store.filter (matchesWhere q)).length + q.limit?.getD 10 - 1) /
          q.limit?.getD 10 = 0 :=
      Nat.le_zero.mp
        (ceilDiv_le_of_le_mul ((store.filter (matchesWhere q)).length)
          (q.limit?.getD 10) 0 hl (by omega))
    simp [htp]
  · intro hbeyond
    dsimp only at hbeyond ⊢
    have hceil := le_ceilDiv_mul ((store.filter (matchesWhere q)).length)
      (q.limit?.getD 10) hl
    have hmul :
        ((store.filter (matchesWhere q)).length + q.limit?.getD 10 - 1) /
            q.limit?.getD 10 * q.limit?.getD 10 ≤
          (q.page?.getD 1 - 1) * q.limit?.getD 10 :=
      Nat.mul_le_mul_right _ (by omega)
    have hlen : (store.filter (matchesWhere q)).length ≤
        (q.page?.getD 1 - 1) * q.limit?.getD 10 := le_trans hceil hmul
    rw [List.drop_eq_nil_of_le (by rw [length_sortTasks]; exact hlen)]
    simp

/-- A two-record store used by the C2 witness. -/
def paginationWitnessStore : List Task :=
  [{ id := "a", name := "n1", dueDate := 0, status := .pending,
     priority := .normal, isActive := true, dateOfCreation := 1,
     updatedAt := 1 },
   { id := "b", name := "n2", dueDate := 0, status := .done,
     priority := .high, isActive := false, dateOfCreation := 2,
     updatedAt := 2 }]

/-- The query `page = 2, limit = 1` used by the C2 witness. -/
def paginationWitnessQuery : QueryTaskDto :=
  { page? := some 2, limit? := some 1 }

/-- The response the engine produces for the C2 witness query: the second
page holds the older record (creation-date descending order), `total = 2`,
`totalPages = 2`, `hasPrev = true`, `hasNext = false`. -/
def paginationWitnessResp : PaginatedTaskResponse :=
  { data :=
      [{ id := "a", name := "n1", dueDate := 0, status := .pending,
         priority := .normal, isActive := true, dateOfCreation := 1,
         updatedAt := 1 }]
    meta :=
      { page := 2, limit := 1, total := 2, totalPages := 2,
        hasNext := false, hasPrev := true } }

/-- Witness for C2 at a concrete query (`page = 2`, `limit = 1`) over a
two-record store. -/
theorem findAll_pagination_meta_witness :
    findAllSvc paginationWitnessQuery paginationWitnessStore true =
      .ok paginationWitnessResp ∧
    paginationWitnessResp.meta.total ≤
      paginationWitnessResp.meta.totalPages *
        paginationWitnessResp.meta.limit ∧
    (paginationWitnessResp.meta.hasPrev = true ↔
      1 < paginationWitnessResp.meta.page) ∧
    paginationWitnessResp.data.length ≤ paginationWitnessResp.meta.limit := by
  have hr : findAllSvc paginationWitnessQuery paginationWitnessStore true =
      .ok paginationWitnessResp := by decide
  have h := findAll_pagination_meta paginationWitnessQuery
    paginationWitnessStore paginationWitnessResp (by decide) (by decide) hr
  exact ⟨hr, h.2.2.2.1, h.2.2.2.2.2.2.1, h.2.2.2.2.2.2.2.2.1⟩

/-- A task whose name matches the search string of `searchCexQuery` only
up to letter case. -/
def searchCexTask : Task :=
  { id := "123e4567-e89b-12d3-a456-426614174000", name := "Project",
    dueDate := 0, status := .pending, priority := .normal, isActive := true,
    dateOfCreation := 0, updatedAt := 0 }

/-- A list query searching for the lowercase string "project". -/
def searchCexQuery : QueryTaskDto := { search? := some "project" }

/-- Claim C5 counterexample: under the spec's case-insensitive reading the
search "project" matches the task named "Project", but the engine's filter
(SQL `LIKE`, case-sensitive on the configured Postgres store) excludes it,
so the result set is empty rather than containing the matching task. -/
theorem search_case_sensitivity_cex :
    specSearchMatchesCI "project" searchCexTask.name = true ∧
    matchesWhere searchCexQuery searchCexTask = false ∧
    (findAllSvc searchCexQuery [searchCexTask] true).toOption.map
      (fun r => (r.data, r.meta.total)) = some ([], 0) := by decide

/-- Claim C5 (amended): the result set consists exactly of the tasks
satisfying the conjunction of all supplied filters — status equality,
priority equality, isActive equality, and a **case-sensitive** substring
match of the search string against the name — with each omitted filter
imposing no constraint: the reported total counts the conjunctively
matching records, every returned record is a matching store record, the
filter is the stated conjunction, and for wildcard-free search strings the
`LIKE '%search%'` clause holds exactly when the search string occurs as a
contiguous (case-sensitive) substring of the name. -/
theorem findAll_conjunctive_filter (q : QueryTaskDto) (store : List Task)
    (t : Task) :
    (∀ r, findAllSvc q store true = .ok r →
      r.meta.total = (store.filter (matchesWhere q)).length ∧
      ∀ u ∈ r.data, u ∈ store ∧ matchesWhere q u = true) ∧
    (matchesWhere q t = true ↔
      ((∀ s, q.status? = some s → t.status = s) ∧
       (∀ p, q.priority? = some p → t.priority = p) ∧
       (∀ b, q.isActive? = some b → t.isActive = b) ∧
       (∀ s, q.search? = some s → s ≠ "" →
         likeMatch (likePattern s) t.name.data = true))) ∧
    (∀ s, q.search? = some s → noWildcards s = true →
      (likeMatch (likePattern s) t.name.data = true ↔
        ∃ pre suf, t.name.data = pre ++ s.data ++ suf)) := by
  refine ⟨?_, ?_, ?_⟩
  · intro r hr
    have hrr : r =
        { data :=
            ((sortTasks
                (taskLe (resolveSortField (q.sortBy?.getD "dateOfCreation"))
                  (q.sortOrder?.getD .desc))
                (store.filter (matchesWhere q))).drop
              ((q.page?.getD 1 - 1) * q.limit?.getD 10)).take
              (q.limit?.getD 10)
          meta :=
            { page := q.page?.getD 1
              limit := q.limit?.getD 10
              total := (store.filter (matchesWhere q)).length
              totalPages :=
                ((store.filter (matchesWhere q)).length + q.limit?.getD 10 -
                    1) / q.limit?.getD 10
              hasNext :=
                decide (q.page?.getD 1 <
                  ((store.filter (matchesWhere q)).length + q.limit?.getD 10
                      - 1) / q.limit?.getD 10)
              hasPrev := decide (1 < q.page?.getD 1) } } := by
      simp only [findAllSvc, if_true] at hr
      exact (Except.ok.injEq _ _ ▸ hr).symm
    subst hrr
    refine ⟨rfl, ?_⟩
    intro u hu
    have h1 : u ∈ store.filter (matchesWhere q) := by
      have h2 := List.mem_of_mem_take hu
      have h3 := List.mem_of_mem_drop h2
      exact (mem_sortTasks _ _ _).mp h3
    have h4 := List.mem_filter.mp h1
    exact ⟨h4.1, h4.2⟩
  · constructor
    · intro hm
      simp only [matchesWhere, Bool.and_eq_true] at hm
      obtain ⟨⟨⟨h1, h2⟩, h3⟩, h4⟩ := hm
      refine ⟨?_, ?_, ?_, ?_⟩
      · intro s hs
        rw [hs] at h1
        simpa using h1
      · intro p hp
        rw [hp] at h2
        simpa using h2
      · intro b hb
        rw [hb] at h3
        simpa using h3
      · intro s hs hne
        rw [hs] at h4
        simpa [if_neg hne] using h4
    · rintro ⟨h1, h2, h3, h4⟩
      simp only [matchesWhere, Bool.and_eq_true]
      refine ⟨⟨⟨?_, ?_⟩, ?_⟩, ?_⟩
      · cases hq : q.status? with
        | none => rfl
        | some s => simpa using h1 s hq
      · cases hq : q.priority? with
        | none => rfl
        | some p => simpa using h2 p hq
      · cases hq : q.isActive? with
        | none => rfl
        | some b => simpa using h3 b hq
      · cases hq : q.search? with
        | none => rfl
        | some s =>
          by_cases hne : s = ""
          · simp [hne]
          · simpa [if_neg hne] using h4 s hq hne
  · intro s _ hw
    have hchars : ∀ c ∈ s.data, noWildcardChar c = true := by
      simpa [noWildcards, List.all_eq_true] using hw
    exact likeMatch_pattern_iff s.data t.name.data hchars

/-- Witness for C5 (amended) at a concrete query and store: searching
"oject" finds the task named "Project". -/
theorem findAll_conjunctive_filter_witness :
    matchesWhere { search? := some "oject" } searchCexTask = true ∧
    (likeMatch (likePattern "oject") searchCexTask.name.data = true ↔
      ∃ pre suf, searchCexTask.name.data = pre ++ "oject".data ++ suf) := by
  have h := findAll_conjunctive_filter { search? := some "oject" }
    [searchCexTask] searchCexTask
  refine ⟨?_, h.2.2 "oject" rfl (by decide)⟩
  exact h.2.1.mpr ⟨by simp, by simp, by simp,
    fun s hs _ => by
      injection hs with hs
      subst hs
      decide⟩

/-- Claim C6: a requested sort field outside the allow-list {name, dueDate,
status, priority, dateOfCreation} (the spec's `createdAt` is the entity's
creation-timestamp column `dateOfCreation`) silently falls back to the
creation timestamp — the engine resolves it to `dateOfCreation` and
produces exactly the output of the same query sorted by `dateOfCreation` —
while a field inside the allow-list is used as requested; no sort field
ever produces an error. -/
theorem sort_field_allowlist_fallback (q : QueryTaskDto)
    (store : List Task) :
    (q.sortBy?.getD "dateOfCreation" ∉ validSortFields →
      resolveSortField (q.sortBy?.getD "dateOfCreation") =
        "dateOfCreation" ∧
      findAllSvc q store true =
        findAllSvc { q with sortBy? := some "dateOfCreation" } store true) ∧
    (q.sortBy?.getD "dateOfCreation" ∈ validSortFields →
      resolveSortField (q.sortBy?.getD "dateOfCreation") =
        q.sortBy?.getD "dateOfCreation") ∧
    (∃ r, findAllSvc q store true = .ok r) := by
  refine ⟨?_, ?_, ⟨_, rfl⟩⟩
  · intro hnot
    have hrs : resolveSortField (q.sortBy?.getD "dateOfCreation") =
        "dateOfCreation" := by
      simp [resolveSortField, hnot]
    refine ⟨hrs, ?_⟩
    simp only [findAllSvc]
    rw [hrs]
    rfl
  · intro hmem
    simp [resolveSortField, hmem]

/-- Witness for C6 at the concrete sort fields "bogus" (outside the
allow-list) and "dueDate" (inside it). -/
theorem sort_field_allowlist_fallback_witness :
    resolveSortField "bogus" = "dateOfCreation" ∧
    resolveSortField "dueDate" = "dueDate" :=
  ⟨((sort_field_allowlist_fallback { sortBy? := some "bogus" } []).1
      (by decide)).1,
   (sort_field_allowlist_fallback { sortBy? := some "dueDate" } []).2.1
     (by decide)⟩

/-- Claim C8: `getStats` computes six counts over the entire collection
independent of any filter — the total record count, one count per status
value, and the count of active records; on the empty collection all six
are 0; and if any of the six underlying count queries fails the whole
operation fails with the persistence error, never returning partial
statistics. -/
theorem getStats_six_counts (store : List Task) (o : StatsQueriesOk) :
    (∀ s, getStatsSvc store o = .ok s →
      s.total = store.length ∧
      s.pending = countWhere (fun t => t.status == .pending) store ∧
      s.inProgress = countWhere (fun t => t.status == .inProgress) store ∧
      s.done = countWhere (fun t => t.status == .done) store ∧
      s.paused = countWhere (fun t => t.status == .paused) store ∧
      s.active = countWhere (fun t => t.isActive) store) ∧
    (o.all = true → getStatsSvc [] o = .ok ⟨0, 0, 0, 0, 0, 0⟩) ∧
    (o.all = false → getStatsSvc store o =
      .error (.persistenceFailure "Failed to fetch task statistics")) := by
  refine ⟨?_, ?_, ?_⟩
  · intro s hs
    cases ho : o.all with
    | true =>
      simp only [getStatsSvc, ho, if_true] at hs
      obtain rfl := (Except.ok.injEq _ _ ▸ hs).symm
      exact ⟨rfl, rfl, rfl, rfl, rfl, rfl⟩
    | false => simp [getStatsSvc, ho] at hs
  · intro ho
    simp [getStatsSvc, ho, countWhere]
  · intro ho
    simp [getStatsSvc, ho]

/-- Witness for C8: on the empty collection with all count queries
succeeding, every count is 0; with a failing count query the operation
fails. -/
theorem getStats_six_counts_witness :
    getStatsSvc [] {} = .ok ⟨0, 0, 0, 0, 0, 0⟩ ∧
    getStatsSvc [] { pendingOk := false } =
      .error (.persistenceFailure "Failed to fetch task statistics") :=
  ⟨(getStats_six_counts [] {}).2.1 rfl,
   (getStats_six_counts [] { pendingOk := false }).2.2 rfl⟩

/-- Claim C10: whenever `getStats` succeeds, the four per-status counts sum
to the total count, and the active count never exceeds the total. -/
theorem stats_partition (store : List Task) (o : StatsQueriesOk)
    (s : TaskStats) (h : getStatsSvc store o = .ok s) :
    s.total = s.pending + s.inProgress + s.done + s.paused ∧
    s.active ≤ s.total := by
  cases ho : o.all with
  | true =>
    simp only [getStatsSvc, ho, if_true] at h
    obtain rfl := (Except.ok.injEq _ _ ▸ h).symm
    exact ⟨length_eq_sum_status_counts store, countWhere_le_length _ store⟩
  | false => simp [getStatsSvc, ho] at h

/-- Witness for C10 on a concrete three-record store. -/
theorem stats_partition_witness :
    ∃ s, getStatsSvc
        [{ id := "a", name := "x", dueDate := 0, status := .pending,
           priority := .normal, isActive := true, dateOfCreation := 0,
           updatedAt := 0 },
         { id := "b", name := "y", dueDate := 0, status := .done,
           priority := .high, isActive := false, dateOfCreation := 0,
           updatedAt := 0 },
         { id := "c", name := "z", dueDate := 0, status := .done,
           priority := .medium, isActive := true, dateOfCreation := 0,
           updatedAt := 0 }] {} = .ok s ∧
      s.total = s.pending + s.inProgress + s.done + s.paused ∧
      s.active ≤ s.total := by
  refine ⟨⟨3, 1, 0, 2, 0, 2⟩, by decide, ?_⟩
  exact stats_partition
    [{ id := "a", name := "x", dueDate := 0, status := .pending,
       priority := .normal, isActive := true, dateOfCreation := 0,
       updatedAt := 0 },
     { id := "b", name := "y", dueDate := 0, status := .done,
       priority := .high, isActive := false, dateOfCreation := 0,
       updatedAt := 0 },
     { id := "c", name := "z", dueDate := 0, status := .done,
       priority := .medium, isActive := true, dateOfCreation := 0,
       updatedAt := 0 }] {} ⟨3, 1, 0, 2, 0, 2⟩ (by decide)

/-- Claim C7: when an underlying store operation fails outside input
validation, each store-interacting operation fails with the
persistence-failure kind, leaving the store unchanged on the write paths;
errors detected before the store write (identifier, not-found, date-format)
surface through `update`/`remove` unchanged; and the persistence kind is
distinct from the validation, date-format, not-found and identifier
kinds. -/
theorem error_kinds_propagation (pd : String → Option Int)
    (id : Option String) (dto : UpdateTaskDto) (cdto : CreateTaskDto)
    (q : QueryTaskDto) (store : List Task) (now : Int) (genId : String)
    (o : StatsQueriesOk) (e : ServiceError) (rOk : Bool) :
    (findOneSvc id store rOk = .error e →
      updateSvc pd id dto store now rOk true = (.error e, store) ∧
      updateSvc pd id dto store now rOk false = (.error e, store) ∧
      removeSvc id store rOk true = (.error e, store) ∧
      removeSvc id store rOk false = (.error e, store)) ∧
    (∀ task, findOneSvc id store rOk = .ok task → dueDateValid pd dto →
      ∃ m, updateSvc pd id dto store now rOk false =
        (.error (.persistenceFailure m), store)) ∧
    (∀ task, findOneSvc id store rOk = .ok task →
      ∃ m, removeSvc id store rOk false =
        (.error (.persistenceFailure m), store)) ∧
    (∀ d, pd cdto.dueDate = some d →
      ∃ m, createSvc pd cdto store genId now false =
        (.error (.persistenceFailure m), store)) ∧
    (∃ m, findAllSvc q store false = .error (.persistenceFailure m)) ∧
    (∀ s, checkId id = .ok s →
      ∃ m, findOneSvc id store false = .error (.persistenceFailure m)) ∧
    (o.all = false →
      ∃ m, getStatsSvc store o = .error (.persistenceFailure m)) ∧
    (∀ m fs i, ServiceError.persistenceFailure m ≠ .validationFailed fs ∧
      ServiceError.persistenceFailure m ≠ .invalidDateFormat ∧
      ServiceError.persistenceFailure m ≠ .notFound i ∧
      ServiceError.persistenceFailure m ≠ .missingIdentifier ∧
      ServiceError.persistenceFailure m ≠ .malformedIdentifier) := by
  refine ⟨?_, ?_, ?_, ?_, ?_, ?_, ?_, ?_⟩
  · intro he
    refine ⟨?_, ?_, ?_, ?_⟩ <;> simp [updateSvc, removeSvc, he]
  · intro task ht hdd
    cases h : dto.dueDate? with
    | none => exact ⟨"Failed to update task", by simp [updateSvc, ht, h, saveUpdated]⟩
    | some s =>
      have hdd' := hdd
      simp only [dueDateValid, h] at hdd'
      obtain ⟨hne, d, hpd⟩ := hdd'
      exact ⟨"Failed to update task", by simp [updateSvc, ht, h, hne, hpd, saveUpdated]⟩
  · intro task ht
    exact ⟨"Failed to delete task", by simp [removeSvc, ht]⟩
  · intro d hd
    exact ⟨"save failed", by simp [createSvc, hd]⟩
  · exact ⟨"find failed", by simp [findAllSvc]⟩
  · intro s hs
    exact ⟨"find failed", by simp [findOneSvc, hs]⟩
  · intro ho
    exact ⟨"Failed to fetch task statistics", by simp [getStatsSvc, ho]⟩
  · intro m fs i
    refine ⟨by simp, by simp, by simp, by simp, by simp⟩

/-- The stored task used by the C7 witness. -/
def errWitnessTask : Task :=
  { id := "123e4567-e89b-12d3-a456-426614174001", name := "w", dueDate := 0,
    status := .pending, priority := .normal, isActive := true,
    dateOfCreation := 0, updatedAt := 0 }

/-- Witness for C7: a failing save during a concrete valid update, and a
failing count during `getStats`, each surface as the persistence kind
with the store untouched. -/
theorem error_kinds_propagation_witness :
    (∃ m, updateSvc (fun _ => none)
        (some "123e4567-e89b-12d3-a456-426614174001") {} [errWitnessTask] 0
        true false = (.error (.persistenceFailure m), [errWitnessTask])) ∧
    (∃ m, getStatsSvc [] { totalOk := false } =
      .error (.persistenceFailure m)) :=
  ⟨(error_kinds_propagation (fun _ => none)
      (some "123e4567-e89b-12d3-a456-426614174001") {}
      { name := "t", dueDate := "d" } {} [errWitnessTask] 0 "g" {}
      .invalidDateFormat true).2.1 errWitnessTask (by decide) trivial,
   (error_kinds_propagation (fun _ => none) none {}
      { name := "t", dueDate := "d" } {} [] 0 "g" { totalOk := false }
      .invalidDateFormat true).2.2.2.2.2.2.1 rfl⟩

end TodoApp
